import Mathlib

/-!
Shallow embedding of the data-model core of `src/NoteApp.py`: the `NoteCategory`
enumeration, the `Note` and `Project` classes with their serialization to and
from JSON-shaped records, and the load half of `ProjectManager`.

Python `datetime` values are abstracted as natural-number ticks; `isoformat`
renders a tick as its decimal string and `fromisoformat` parses it back,
returning `none` on an unparseable string (the model of the `ValueError`
raised by `datetime.fromisoformat`).  A raised `ValueError` inside
`Note.from_dict` (unknown category string or unparseable timestamp) is
modelled by the `Option` monad.  `datetime.now()` is modelled by passing the
current tick explicitly to `Note.init` and `Note.update`.
-/

namespace NoteApp

/-- The closed category enumeration (`NoteCategory` in the source). -/
inductive NoteCategory where
  | WORK
  | HOME
  | HEALTH
  | PEOPLE
  | DOCUMENTS
  | FINANCE
  | MISC
deriving DecidableEq

/-- The display string of a category: the `.value` of each Python enum member. -/
def NoteCategory.value : NoteCategory → String
  | .WORK => "Работа"
  | .HOME => "Дом"
  | .HEALTH => "Здоровье и Спорт"
  | .PEOPLE => "Люди"
  | .DOCUMENTS => "Документы"
  | .FINANCE => "Финансы"
  | .MISC => "Разное"

/-- Looking a category up by its display string: `NoteCategory(s)` in Python.
`none` models the `ValueError` raised on a string outside the closed set. -/
def NoteCategory.ofValue (s : String) : Option NoteCategory :=
  if s = "Работа" then some .WORK
  else if s = "Дом" then some .HOME
  else if s = "Здоровье и Спорт" then some .HEALTH
  else if s = "Люди" then some .PEOPLE
  else if s = "Документы" then some .DOCUMENTS
  else if s = "Финансы" then some .FINANCE
  else if s = "Разное" then some .MISC
  else none

/-- Digit expansion used to render a tick in decimal, most significant digit
first; the first argument is fuel making the recursion structural. -/
def toDigitsCore : Nat → Nat → List Nat
  | 0, _ => []
  | fuel + 1, n => if n < 10 then [n] else toDigitsCore fuel (n / 10) ++ [n % 10]

/-- Decimal digits of `n`, most significant first. -/
def toDigits (n : Nat) : List Nat := toDigitsCore (n + 1) n

/-- Value of a big-endian digit list. -/
def ofDigits (ds : List Nat) : Nat := List.foldl (fun a d => 10 * a + d) 0 ds

/-- Model of `datetime.isoformat`: render a tick as round-trippable text. -/
def isoformat (t : Nat) : String :=
  String.mk (List.map (fun d => Char.ofNat (48 + d)) (toDigits t))

/-- Numeric value of a decimal digit character. -/
def charToDigit (c : Char) : Nat := c.toNat - 48

/-- Model of `datetime.fromisoformat`: parse the textual timestamp, `none`
modelling the `ValueError` on a string that is not a rendered timestamp. -/
def fromisoformat (s : String) : Option Nat :=
  if s.data.isEmpty then none
  else if s.data.all Char.isDigit then some (ofDigits (s.data.map charToDigit))
  else none

/-- Embedding of the Python slice `s[:k]`: the first `k` characters of `s`. -/
def pyTake (k : Nat) (s : String) : String := String.mk (s.data.take k)

/-- The `Note` class: title, category, content and the two timestamps. -/
structure Note where
  title : String
  category : NoteCategory
  content : String
  created_at : Nat
  updated_at : Nat
deriving DecidableEq

/-- `Note.__init__`: the heading is truncated to 50 characters and both
timestamps are stamped with the construction time. -/
def Note.init (now : Nat) (heading : String) (category : NoteCategory)
    (content_body : String) : Note :=
  ⟨pyTake 50 heading, category, content_body, now, now⟩

/-- `Note.update`: each truthy argument replaces its field (`none` models an
absent argument, and an empty string is falsy in Python, hence also skipped);
`updated_at` is unconditionally reassigned to the current time. -/
def Note.update (n : Note) (now : Nat) (heading : Option String)
    (category : Option NoteCategory) (content_body : Option String) : Note :=
  let t := match heading with
    | some h => if h.isEmpty then n.title else pyTake 50 h
    | none => n.title
  let c := match category with
    | some c => c
    | none => n.category
  let b := match content_body with
    | some b => if b.isEmpty then n.content else b
    | none => n.content
  ⟨t, c, b, n.created_at, now⟩

/-- The dictionary `Note.to_dict` builds: every field rendered as a string
where the source does so. -/
structure NoteRecord where
  title : String
  category : String
  content : String
  created_at : String
  updated_at : String
deriving DecidableEq

/-- `Note.to_dict`: category rendered as its display string, timestamps in
textual form. -/
def Note.to_dict (n : Note) : NoteRecord :=
  ⟨n.title, n.category.value, n.content, isoformat n.created_at, isoformat n.updated_at⟩

/-- `Note.from_dict`: constructs the note through `Note.__init__` (hence the
title is truncated again) and then overwrites both timestamps with the parsed
record values; any lookup or parse failure aborts the whole deserialization. -/
def Note.from_dict (d : NoteRecord) : Option Note :=
  match NoteCategory.ofValue d.category, fromisoformat d.created_at,
      fromisoformat d.updated_at with
  | some cat, some tc, some tu => some ⟨pyTake 50 d.title, cat, d.content, tc, tu⟩
  | _, _, _ => none

/-- The `Project` class: an ordered collection of notes. -/
structure Project where
  memo_collection : List Note
deriving DecidableEq

/-- `Project.__init__`: the empty collection. -/
def Project.init : Project := ⟨[]⟩

/-- `Project.add_note`: append at the end. -/
def Project.add_note (p : Project) (note_obj : Note) : Project :=
  ⟨p.memo_collection ++ [note_obj]⟩

/-- `Project.remove_note_by_index`: `del` at the index when `0 <= index < len`,
otherwise a silent no-op.  The index is an `Int`, as any Python `int` may be
passed. -/
def Project.remove_note_by_index (p : Project) (index : Int) : Project :=
  if 0 ≤ index ∧ index < (p.memo_collection.length : Int) then
    ⟨p.memo_collection.eraseIdx index.toNat⟩
  else p

/-- The dictionary `Project.to_dict` builds. -/
structure ProjectRecord where
  notes : List NoteRecord
deriving DecidableEq

/-- `Project.to_dict`: serialize every note in order. -/
def Project.to_dict (p : Project) : ProjectRecord :=
  ⟨p.memo_collection.map Note.to_dict⟩

/-- The list comprehension in `Project.from_dict`: deserialize the entries in
order, aborting the whole list on the first failure (a raised exception). -/
def notesFromDicts : List NoteRecord → Option (List Note)
  | [] => some []
  | d :: ds =>
    match Note.from_dict d, notesFromDicts ds with
    | some n, some ns => some (n :: ns)
    | _, _ => none

/-- `Project.from_dict`: rebuild the collection, propagating any failure. -/
def Project.from_dict (data : ProjectRecord) : Option Project :=
  (notesFromDicts data.notes).map Project.mk

/-- `ProjectManager.load_project`: the file system is abstracted as
`Option ProjectRecord` (`none` = no file at the fixed path, `some data` = the
parsed JSON contents).  A missing file yields a fresh empty project; an
existing file is rebuilt through `Project.from_dict`, whose failure
propagates. -/
def ProjectManager.load_project (file : Option ProjectRecord) : Option Project :=
  match file with
  | some data => Project.from_dict data
  | none => some Project.init

/-- One recorded call to `Note.update`: the clock reading and the three
optional arguments. -/
structure UpdateCall where
  now : Nat
  heading : Option String
  category : Option NoteCategory
  content_body : Option String

/-- A sequence of `Note.update` calls applied in order. -/
def applyUpdates (n : Note) (us : List UpdateCall) : Note :=
  List.foldl (fun m u => Note.update m u.now u.heading u.category u.content_body) n us

/-- A persisted record whose stored `updated_at` precedes its `created_at`. -/
def badTimestampRecord : NoteRecord := ⟨"a", "Разное", "", "5", "3"⟩

/-- The note `Note.from_dict` rebuilds from `badTimestampRecord`. -/
def badTimestampNote : Note := ⟨"a", NoteCategory.MISC, "", 5, 3⟩

/-! ## Helper lemmas -/

theorem ofDigits_append (ds : List Nat) (d : Nat) :
    ofDigits (ds ++ [d]) = 10 * ofDigits ds + d := by
  simp [ofDigits, List.foldl_append]

theorem toDigitsCore_sound : ∀ fuel n, n < fuel → ofDigits (toDigitsCore fuel n) = n := by
  intro fuel
  induction fuel with
  | zero => intro n hn; omega
  | succ fuel ih =>
    intro n hn
    unfold toDigitsCore
    by_cases h10 : n < 10
    · simp [h10, ofDigits]
    · have hdiv : n / 10 < fuel := by omega
      simp only [h10, if_false, ofDigits_append, ih (n / 10) hdiv]
      omega

theorem toDigitsCore_lt10 : ∀ fuel n d, d ∈ toDigitsCore fuel n → d < 10 := by
  intro fuel
  induction fuel with
  | zero => intro n d hd; simp [toDigitsCore] at hd
  | succ fuel ih =>
    intro n d hd
    unfold toDigitsCore at hd
    by_cases h10 : n < 10
    · simp [h10] at hd; omega
    · simp only [h10, if_false, List.mem_append, List.mem_singleton] at hd
      rcases hd with hd | hd
      · exact ih (n / 10) d hd
      · omega

theorem toDigits_ne_nil (n : Nat) : toDigits n ≠ [] := by
  unfold toDigits toDigitsCore
  by_cases h10 : n < 10 <;> simp [h10]

theorem charToDigit_enc (d : Nat) (h : d < 10) :
    charToDigit (Char.ofNat (48 + d)) = d := by
  interval_cases d <;> decide

theorem isDigit_enc (d : Nat) (h : d < 10) :
    (Char.ofNat (48 + d)).isDigit = true := by
  interval_cases d <;> decide

theorem fromisoformat_isoformat (t : Nat) : fromisoformat (isoformat t) = some t := by
  have hne : toDigits t ≠ [] := toDigits_ne_nil t
  have hlt : ∀ d ∈ toDigits t, d < 10 := fun d hd => toDigitsCore_lt10 _ _ d hd
  unfold fromisoformat isoformat
  rw [if_neg, if_pos]
  · congr 1
    rw [List.map_map]
    have hid : (toDigits t).map (charToDigit ∘ fun d => Char.ofNat (48 + d)) = toDigits t := by
      rw [List.map_congr_left, List.map_id]
      intro d hd
      exact charToDigit_enc d (hlt d hd)
    rw [hid]
    exact toDigitsCore_sound (t + 1) t (Nat.lt_succ_self t)
  · rw [List.all_eq_true]
    intro c hc
    rw [List.mem_map] at hc
    obtain ⟨d, hd, rfl⟩ := hc
    exact isDigit_enc d (hlt d hd)
  · simp only [List.isEmpty_eq_true, List.map_eq_nil_iff]
    exact hne

theorem ofValue_value (c : NoteCategory) : NoteCategory.ofValue c.value = some c := by
  cases c <;> rfl

theorem pyTake_of_le (k : Nat) (s : String) (h : s.length ≤ k) : pyTake k s = s := by
  unfold pyTake
  rw [List.take_of_length_le h]

theorem from_dict_to_dict (n : Note) (h : n.title.length ≤ 50) :
    Note.from_dict (Note.to_dict n) = some n := by
  unfold Note.from_dict Note.to_dict
  rw [ofValue_value, fromisoformat_isoformat, fromisoformat_isoformat]
  simp [pyTake_of_le 50 n.title h]

theorem notesFromDicts_roundtrip (ns : List Note) (h : ∀ n ∈ ns, n.title.length ≤ 50) :
    notesFromDicts (ns.map Note.to_dict) = some ns := by
  induction ns with
  | nil => rfl
  | cons n ns ih =>
    simp only [List.map_cons, notesFromDicts]
    rw [from_dict_to_dict n (h n (List.mem_cons_self n ns)),
      ih (fun m hm => h m (List.mem_cons_of_mem n hm))]

/-! ## Claim theorems -/

/-- C1: Round-trip law: for every Project `p` (a finite ordered list of Notes,
each satisfying the title-length invariant of the data model),
`Project.from_dict (Project.to_dict p)` succeeds and yields a collection equal
to `p` in order and element-wise in every field. -/
theorem c1_roundtrip (p : Project) (h : ∀ n ∈ p.memo_collection, n.title.length ≤ 50) :
    Project.from_dict (Project.to_dict p) = some p := by
  unfold Project.from_dict Project.to_dict
  rw [notesFromDicts_roundtrip p.memo_collection h]
  rfl

/-- Witness for C1 at a concrete one-note project. -/
theorem c1_roundtrip_witness :
    Project.from_dict (Project.to_dict ⟨[⟨"Buy milk", NoteCategory.HOME, "milk", 0, 7⟩]⟩) =
      some ⟨[⟨"Buy milk", NoteCategory.HOME, "milk", 0, 7⟩]⟩ :=
  c1_roundtrip ⟨[⟨"Buy milk", NoteCategory.HOME, "milk", 0, 7⟩]⟩ (by decide)

/-- C3: for every title `t` longer than 50 characters, construction yields the
title `t[:50]` (embedded as `pyTake 50 t`), an `update` given `t` as heading
likewise sets the title to `t[:50]`, and the truncated title has exactly 50
characters; both operations are total, so the truncation is silent. -/
theorem c3_truncation (t : String) (h : 50 < t.length) (now : Nat)
    (category : NoteCategory) (content_body : String) (m : Note)
    (c : Option NoteCategory) (b : Option String) :
    (Note.init now t category content_body).title = pyTake 50 t ∧
    (Note.update m now (some t) c b).title = pyTake 50 t ∧
    (pyTake 50 t).length = 50 := by
  have hne : t.isEmpty = false := by
    rw [← Bool.not_eq_true, String.isEmpty_iff]
    intro h0
    rw [h0] at h
    exact absurd h (by decide)
  refine ⟨rfl, ?_, ?_⟩
  · simp [Note.update, hne]
  · show (t.data.take 50).length = 50
    rw [List.length_take]
    have hd : t.length = t.data.length := rfl
    omega

/-- Witness for C3 at a concrete 51-character title. -/
theorem c3_truncation_witness :
    (Note.init 0 (String.mk (List.replicate 51 'a')) NoteCategory.MISC "").title =
      pyTake 50 (String.mk (List.replicate 51 'a')) ∧
    (Note.update ⟨"x", NoteCategory.WORK, "", 0, 0⟩ 1
        (some (String.mk (List.replicate 51 'a'))) none none).title =
      pyTake 50 (String.mk (List.replicate 51 'a')) ∧
    (pyTake 50 (String.mk (List.replicate 51 'a'))).length = 50 :=
  c3_truncation (String.mk (List.replicate 51 'a')) (by decide) 0 NoteCategory.MISC ""
    ⟨"x", NoteCategory.WORK, "", 0, 0⟩ none none

/-- C6: frame property of `Note.update`: `created_at` is never changed, an
absent (`none`) or empty-string heading leaves the title unchanged, an absent
category leaves the category unchanged, and an absent or empty-string body
leaves the content unchanged. -/
theorem c6_frame (n : Note) (now : Nat) (heading : Option String)
    (category : Option NoteCategory) (content_body : Option String) :
    (Note.update n now heading category content_body).created_at = n.created_at ∧
    ((heading = none ∨ heading = some "") →
      (Note.update n now heading category content_body).title = n.title) ∧
    (category = none →
      (Note.update n now heading category content_body).category = n.category) ∧
    ((content_body = none ∨ content_body = some "") →
      (Note.update n now heading category content_body).content = n.content) := by
  refine ⟨rfl, ?_, ?_, ?_⟩
  · rintro (rfl | rfl) <;> rfl
  · rintro rfl; rfl
  · rintro (rfl | rfl) <;> rfl

/-- Witness for C6: an update passing an empty title, no category and an empty
body changes none of those three fields. -/
theorem c6_frame_witness :
    (Note.update ⟨"t", NoteCategory.WORK, "c", 1, 1⟩ 9 (some "") none (some "")).title = "t" ∧
    (Note.update ⟨"t", NoteCategory.WORK, "c", 1, 1⟩ 9 (some "") none (some "")).category =
      NoteCategory.WORK ∧
    (Note.update ⟨"t", NoteCategory.WORK, "c", 1, 1⟩ 9 (some "") none (some "")).content = "c" :=
  ⟨(c6_frame ⟨"t", NoteCategory.WORK, "c", 1, 1⟩ 9 (some "") none (some "")).2.1 (Or.inr rfl),
    (c6_frame ⟨"t", NoteCategory.WORK, "c", 1, 1⟩ 9 (some "") none (some "")).2.2.1 rfl,
    (c6_frame ⟨"t", NoteCategory.WORK, "c", 1, 1⟩ 9 (some "") none (some "")).2.2.2 (Or.inr rfl)⟩

/-- C7: touch semantics of `Note.update`: every call reassigns `updated_at` to
the current time, and a call with all three arguments absent changes nothing
else. -/
theorem c7_touch :
    (∀ (n : Note) (now : Nat) (heading : Option String) (category : Option NoteCategory)
      (content_body : Option String),
      (Note.update n now heading category content_body).updated_at = now) ∧
    (∀ (n : Note) (now : Nat),
      (Note.update n now none none none).title = n.title ∧
      (Note.update n now none none none).category = n.category ∧
      (Note.update n now none none none).content = n.content ∧
      (Note.update n now none none none).created_at = n.created_at ∧
      (Note.update n now none none none).updated_at = now) :=
  ⟨fun _ _ _ _ _ => rfl, fun _ _ => ⟨rfl, rfl, rfl, rfl, rfl⟩⟩

/-- C8: loading when the storage file does not exist returns a fresh empty
Project with zero notes, not a failure. -/
theorem c8_load_missing_file :
    ProjectManager.load_project none = some Project.init ∧
    Project.init.memo_collection.length = 0 :=
  ⟨rfl, rfl⟩

/-- C9: `Project.add_note` is append-only: the length grows by exactly one,
the new last element is the added note, and the prefix of prior elements is
unchanged; the operation is total, so duplicates are permitted and no error
can occur. -/
theorem c9_append (p : Project) (note_obj : Note) :
    (p.add_note note_obj).memo_collection.length = p.memo_collection.length + 1 ∧
    (p.add_note note_obj).memo_collection[p.memo_collection.length]? = some note_obj ∧
    (p.add_note note_obj).memo_collection.take p.memo_collection.length =
      p.memo_collection := by
  refine ⟨?_, ?_, ?_⟩
  · simp [Project.add_note]
  · exact List.getElem?_concat_length p.memo_collection note_obj
  · exact List.take_left p.memo_collection [note_obj]

theorem notesFromDicts_none (ds : List NoteRecord)
    (h : ∃ d ∈ ds, Note.from_dict d = none) : notesFromDicts ds = none := by
  induction ds with
  | nil => simp at h
  | cons d ds ih =>
    obtain ⟨e, he, hnone⟩ := h
    rcases List.mem_cons.mp he with rfl | he2
    · simp [notesFromDicts, hnone]
    · unfold notesFromDicts
      rw [ih ⟨e, he2, hnone⟩]
      cases Note.from_dict d <;> rfl

/-- C4: `Note.from_dict` fails exactly when the category string is outside the
closed set or one of the timestamp strings is unparseable; on a record
produced by `Note.to_dict` from a Note satisfying the title invariant it is
the inverse of serialization; and loading a file whose parsed contents hold a
malformed note record fails, returning no partially-built Project. -/
theorem c4_malformed :
    (∀ d : NoteRecord,
      Note.from_dict d = none ↔
        (NoteCategory.ofValue d.category = none ∨ fromisoformat d.created_at = none ∨
          fromisoformat d.updated_at = none)) ∧
    (∀ n : Note, n.title.length ≤ 50 → Note.from_dict (Note.to_dict n) = some n) ∧
    (∀ pd : ProjectRecord, (∃ d ∈ pd.notes, Note.from_dict d = none) →
      ProjectManager.load_project (some pd) = none) := by
  refine ⟨?_, from_dict_to_dict, ?_⟩
  · intro d
    unfold Note.from_dict
    cases NoteCategory.ofValue d.category <;>
      cases fromisoformat d.created_at <;>
      cases fromisoformat d.updated_at <;> simp
  · intro pd h
    show Project.from_dict pd = none
    unfold Project.from_dict
    rw [notesFromDicts_none pd.notes h]
    rfl

/-- Witness for C4: a record with category `NotARealCategory` fails to
deserialize, a concrete serialized note deserializes back to itself, and a
load of a file holding the malformed record fails. -/
theorem c4_malformed_witness :
    Note.from_dict ⟨"x", "NotARealCategory", "", "1", "1"⟩ = none ∧
    Note.from_dict (Note.to_dict ⟨"x", NoteCategory.WORK, "", 1, 2⟩) =
      some ⟨"x", NoteCategory.WORK, "", 1, 2⟩ ∧
    ProjectManager.load_project (some ⟨[⟨"x", "NotARealCategory", "", "1", "1"⟩]⟩) = none :=
  ⟨(c4_malformed.1 ⟨"x", "NotARealCategory", "", "1", "1"⟩).mpr (Or.inl (by decide)),
    c4_malformed.2.1 ⟨"x", NoteCategory.WORK, "", 1, 2⟩ (by decide),
    c4_malformed.2.2 ⟨[⟨"x", "NotARealCategory", "", "1", "1"⟩]⟩
      ⟨⟨"x", "NotARealCategory", "", "1", "1"⟩, by simp,
        (c4_malformed.1 ⟨"x", "NotARealCategory", "", "1", "1"⟩).mpr (Or.inl (by decide))⟩⟩

/-- C5: `Project.remove_note_by_index` with an in-range index removes exactly
the element at that position — the length drops by one, earlier elements are
untouched and later elements shift down by one — and with any negative or
too-large index it leaves the project entirely unchanged, raising no error. -/
theorem c5_remove (p : Project) (index : Int) :
    (0 ≤ index → index < (p.memo_collection.length : Int) →
      ((p.remove_note_by_index index).memo_collection.length =
          p.memo_collection.length - 1 ∧
        (∀ j : Nat, j < index.toNat →
          (p.remove_note_by_index index).memo_collection[j]? =
            p.memo_collection[j]?) ∧
        (∀ j : Nat, index.toNat ≤ j →
          (p.remove_note_by_index index).memo_collection[j]? =
            p.memo_collection[j + 1]?))) ∧
    ((index < 0 ∨ (p.memo_collection.length : Int) ≤ index) →
      p.remove_note_by_index index = p) := by
  constructor
  · intro h0 hlt
    have hcond : 0 ≤ index ∧ index < (p.memo_collection.length : Int) := ⟨h0, hlt⟩
    have hi : index.toNat < p.memo_collection.length := by omega
    unfold Project.remove_note_by_index
    rw [if_pos hcond]
    set l := p.memo_collection with hl
    set i := index.toNat with hidef
    have htl : (l.take i).length = i := by
      rw [List.length_take]
      omega
    refine ⟨?_, ?_, ?_⟩
    · show (l.eraseIdx i).length = l.length - 1
      rw [List.eraseIdx_eq_take_drop_succ, List.length_append, htl, List.length_drop]
      omega
    · intro j hj
      show (l.eraseIdx i)[j]? = l[j]?
      rw [List.eraseIdx_eq_take_drop_succ,
        List.getElem?_append_left (by rw [htl]; omega),
        List.getElem?_take_of_lt hj]
    · intro j hj
      show (l.eraseIdx i)[j]? = l[j + 1]?
      rw [List.eraseIdx_eq_take_drop_succ,
        List.getElem?_append_right (by rw [htl]; omega), htl, List.getElem?_drop]
      congr 1
      omega
  · intro h
    unfold Project.remove_note_by_index
    rw [if_neg]
    rintro ⟨h0, hlt⟩
    rcases h with h | h <;> omega

/-- Witness for C5: removing index 1 from a three-note project keeps note 0 in
place, shifts note 2 down to position 1, and removing at index 5 (or any
out-of-range index) is a no-op. -/
theorem c5_remove_witness :
    (Project.remove_note_by_index
        ⟨[⟨"a", NoteCategory.WORK, "", 0, 0⟩, ⟨"b", NoteCategory.HOME, "", 0, 0⟩,
          ⟨"c", NoteCategory.MISC, "", 0, 0⟩]⟩ 1).memo_collection.length = 2 ∧
    (Project.remove_note_by_index
        ⟨[⟨"a", NoteCategory.WORK, "", 0, 0⟩, ⟨"b", NoteCategory.HOME, "", 0, 0⟩,
          ⟨"c", NoteCategory.MISC, "", 0, 0⟩]⟩ 1).memo_collection[0]? =
      some ⟨"a", NoteCategory.WORK, "", 0, 0⟩ ∧
    (Project.remove_note_by_index
        ⟨[⟨"a", NoteCategory.WORK, "", 0, 0⟩, ⟨"b", NoteCategory.HOME, "", 0, 0⟩,
          ⟨"c", NoteCategory.MISC, "", 0, 0⟩]⟩ 1).memo_collection[1]? =
      some ⟨"c", NoteCategory.MISC, "", 0, 0⟩ ∧
    Project.remove_note_by_index
        ⟨[⟨"a", NoteCategory.WORK, "", 0, 0⟩, ⟨"b", NoteCategory.HOME, "", 0, 0⟩,
          ⟨"c", NoteCategory.MISC, "", 0, 0⟩]⟩ 5 =
      ⟨[⟨"a", NoteCategory.WORK, "", 0, 0⟩, ⟨"b", NoteCategory.HOME, "", 0, 0⟩,
        ⟨"c", NoteCategory.MISC, "", 0, 0⟩]⟩ :=
  ⟨((c5_remove ⟨[⟨"a", NoteCategory.WORK, "", 0, 0⟩, ⟨"b", NoteCategory.HOME, "", 0, 0⟩,
        ⟨"c", NoteCategory.MISC, "", 0, 0⟩]⟩ 1).1 (by decide) (by decide)).1,
    ((c5_remove ⟨[⟨"a", NoteCategory.WORK, "", 0, 0⟩, ⟨"b", NoteCategory.HOME, "", 0, 0⟩,
        ⟨"c", NoteCategory.MISC, "", 0, 0⟩]⟩ 1).1 (by decide) (by decide)).2.1 0 (by decide),
    ((c5_remove ⟨[⟨"a", NoteCategory.WORK, "", 0, 0⟩, ⟨"b", NoteCategory.HOME, "", 0, 0⟩,
        ⟨"c", NoteCategory.MISC, "", 0, 0⟩]⟩ 1).1 (by decide) (by decide)).2.2 1 (by decide),
    (c5_remove ⟨[⟨"a", NoteCategory.WORK, "", 0, 0⟩, ⟨"b", NoteCategory.HOME, "", 0, 0⟩,
        ⟨"c", NoteCategory.MISC, "", 0, 0⟩]⟩ 5).2 (Or.inr (by decide))⟩

/-- C10: deserialization re-applies the title truncation: a record with a
valid category, parseable timestamps and a title longer than 50 characters
deserializes successfully into a Note whose title is the record title's first
50 characters, so the title-length invariant survives loading. -/
theorem c10_deserialize_truncates (d : NoteRecord) (cat : NoteCategory) (tc tu : Nat)
    (hcat : NoteCategory.ofValue d.category = some cat)
    (hc : fromisoformat d.created_at = some tc)
    (hu : fromisoformat d.updated_at = some tu)
    (ht : 50 < d.title.length) :
    Note.from_dict d = some ⟨pyTake 50 d.title, cat, d.content, tc, tu⟩ ∧
    (pyTake 50 d.title).length = 50 := by
  constructor
  · unfold Note.from_dict
    rw [hcat, hc, hu]
  · show (d.title.data.take 50).length = 50
    rw [List.length_take]
    have hd : d.title.length = d.title.data.length := rfl
    omega

/-- Witness for C10 at a record holding a 51-character title. -/
theorem c10_deserialize_truncates_witness :
    Note.from_dict ⟨String.mk (List.replicate 51 'a'), "Разное", "", "1", "2"⟩ =
      some ⟨pyTake 50 (String.mk (List.replicate 51 'a')), NoteCategory.MISC, "", 1, 2⟩ ∧
    (pyTake 50 (String.mk (List.replicate 51 'a'))).length = 50 :=
  c10_deserialize_truncates ⟨String.mk (List.replicate 51 'a'), "Разное", "", "1", "2"⟩
    NoteCategory.MISC 1 2 (by decide) (by decide) (by decide) (by decide)

/-- C2 counterexample: the claim quantifies over deserialization of any
record, but `Note.from_dict` copies both stored timestamps without comparing
them, so a record whose `updated_at` precedes its `created_at` deserializes
successfully into a Note with `updated_at < created_at`. -/
theorem c2_invariant_counterexample :
    Note.from_dict badTimestampRecord = some badTimestampNote ∧
    badTimestampNote.created_at = 5 ∧ badTimestampNote.updated_at = 3 ∧
    ¬ badTimestampNote.created_at ≤ badTimestampNote.updated_at :=
  ⟨by decide, rfl, rfl, by decide⟩

/-- C2 (amended): `updated_at >= created_at` holds after construction, after
any sequence of `update` calls whose clock readings are at or after the
note's creation time, and after deserialization of any record whose stored
timestamps themselves satisfy the inequality (in particular, every record
produced by serialization); it does not survive deserialization of arbitrary
records. -/
theorem c2_invariant :
    (∀ (now : Nat) (heading : String) (category : NoteCategory) (content_body : String),
      (Note.init now heading category content_body).created_at ≤
        (Note.init now heading category content_body).updated_at) ∧
    (∀ (n : Note) (us : List UpdateCall),
      n.created_at ≤ n.updated_at → (∀ u ∈ us, n.created_at ≤ u.now) →
      ((applyUpdates n us).created_at = n.created_at ∧
        (applyUpdates n us).created_at ≤ (applyUpdates n us).updated_at)) ∧
    (∀ (d : NoteRecord) (m : Note) (tc tu : Nat),
      fromisoformat d.created_at = some tc → fromisoformat d.updated_at = some tu →
      tc ≤ tu → Note.from_dict d = some m → m.created_at ≤ m.updated_at) := by
  refine ⟨fun _ _ _ _ => le_refl _, ?_, ?_⟩
  · intro n us
    induction us generalizing n with
    | nil => intro h1 _; exact ⟨rfl, h1⟩
    | cons u us ih =>
      intro h1 h2
      have hinv : (Note.update n u.now u.heading u.category u.content_body).created_at ≤
          (Note.update n u.now u.heading u.category u.content_body).updated_at := by
        show n.created_at ≤ u.now
        exact h2 u (List.mem_cons_self u us)
      have hmono : ∀ v ∈ us,
          (Note.update n u.now u.heading u.category u.content_body).created_at ≤ v.now :=
        fun v hv => h2 v (List.mem_cons_of_mem u hv)
      obtain ⟨e1, e2⟩ := ih (Note.update n u.now u.heading u.category u.content_body) hinv hmono
      exact ⟨e1, e2⟩
  · intro d m tc tu hc hu hle hfd
    unfold Note.from_dict at hfd
    cases hcat : NoteCategory.ofValue d.category with
    | none => rw [hcat] at hfd; exact absurd hfd (by simp)
    | some cat =>
      rw [hcat, hc, hu] at hfd
      injection hfd with hm
      rw [← hm]
      exact hle

/-- Witness for C2's amended theorem: a concrete note, a two-call update
sequence with non-decreasing clock readings, and a concrete well-ordered
record all preserve the invariant. -/
theorem c2_invariant_witness :
    (applyUpdates ⟨"t", NoteCategory.WORK, "", 1, 1⟩
        [⟨2, none, none, none⟩, ⟨3, some "u", none, none⟩]).created_at = 1 ∧
    (applyUpdates ⟨"t", NoteCategory.WORK, "", 1, 1⟩
        [⟨2, none, none, none⟩, ⟨3, some "u", none, none⟩]).created_at ≤
      (applyUpdates ⟨"t", NoteCategory.WORK, "", 1, 1⟩
        [⟨2, none, none, none⟩, ⟨3, some "u", none, none⟩]).updated_at ∧
    (⟨"x", NoteCategory.WORK, "", 1, 2⟩ : Note).created_at ≤
      (⟨"x", NoteCategory.WORK, "", 1, 2⟩ : Note).updated_at :=
  ⟨(c2_invariant.2.1 ⟨"t", NoteCategory.WORK, "", 1, 1⟩
      [⟨2, none, none, none⟩, ⟨3, some "u", none, none⟩] (by decide) (by decide)).1,
    (c2_invariant.2.1 ⟨"t", NoteCategory.WORK, "", 1, 1⟩
      [⟨2, none, none, none⟩, ⟨3, some "u", none, none⟩] (by decide) (by decide)).2,
    c2_invariant.2.2 ⟨"x", "Работа", "", "1", "2"⟩ ⟨"x", NoteCategory.WORK, "", 1, 2⟩ 1 2
      (by decide) (by decide) (by decide) (by decide)⟩

end NoteApp
